import Mathlib

/-!
Shallow embedding of the gpubsub-lite message pipeline.

The repository wraps Google Cloud Pub/Sub with:
* a Consumer (`src/consumer.ts`, two variants: a basic one with a single
  outer try/catch, and an enhanced one with per-phase try/catch and hooks),
* a Publisher (`src/publisher.ts`, basic variant without retry, and an
  enhanced variant `publishWithRetry` with exponential backoff),
* an in-memory idempotency store (`src/idempotency/memory-store.ts`).

External effects (JSON.parse, the idempotency store's `has`/`set`, the user
handler, the transport publish call, `Math.random`) are modelled as oracle
inputs: each run of a pipeline is a pure function from the outcomes of those
calls to the sequence of externally visible actions it performs.
Observability hooks are each wrapped in their own try/catch in the source and
only log on failure, so they cannot influence control flow; they are omitted
from the visible-action traces.
-/

/-- The value handed to the user handler: either the JSON-parsed payload or,
in the enhanced consumer's fallback, the raw UTF-8 string. Parsed payloads
are represented opaquely by a string token. -/
inductive ConsumedData where
  | parsed (v : String)
  | raw (s : String)
deriving DecidableEq, Repr

/-- Externally visible actions of one consumer message callback, in order:
the idempotency `has` check, the idempotency `set`, the user handler
invocation (with the data value it received), `message.ack()`, and
`message.nack()`. -/
inductive ConsumerEv where
  | hasCheck
  | setKey
  | handlerInvoked (d : ConsumedData)
  | ack
  | nack
deriving DecidableEq, Repr

/-- Oracle describing how the external calls behave for one delivered
message: whether `JSON.parse` succeeds (and with what value), the decoded
raw string, the results of the store's `has` and `set`, and whether a user
handler is registered (and what its invocation does). Errors are `String`s
standing for arbitrary thrown values. -/
structure MsgBehavior where
  parseRes : Option String
  rawStr : String
  hasRes : Except String Bool
  setRes : Except String Unit
  handler : Option (Except String Unit)

/-- The data value the enhanced consumer computes: parsed JSON on success,
the raw string as fallback on parse failure (consumer.ts enhanced variant,
inner try/catch around `JSON.parse`). -/
def dataOf (b : MsgBehavior) : ConsumedData :=
  match b.parseRes with
  | some v => ConsumedData.parsed v
  | none => ConsumedData.raw b.rawStr

/-- Handler phase shared by both consumer variants: with no handler
registered the message is acked; with a handler it is invoked, and on a
thrown error the catch block nacks. (On handler success neither variant
acks.) -/
def handlerPhase (data : ConsumedData) (handler : Option (Except String Unit)) :
    List ConsumerEv :=
  match handler with
  | none => [ConsumerEv.ack]
  | some (Except.ok _) => [ConsumerEv.handlerInvoked data]
  | some (Except.error _) => [ConsumerEv.handlerInvoked data, ConsumerEv.nack]

/-- Enhanced consumer message callback (consumer.ts enhanced variant).
Parse failures fall back to the raw string; the idempotency `has`/`set`
calls sit in their own try/catch whose catch only logs and lets processing
continue (fail-open); a duplicate is acked without reaching the handler;
handler errors reach the outer catch, which nacks. -/
def enhancedOnMessage (idem : Bool) (b : MsgBehavior) : List ConsumerEv :=
  let data := dataOf b
  if idem then
    match b.hasRes with
    | Except.ok true => [ConsumerEv.hasCheck, ConsumerEv.ack]
    | Except.ok false =>
        -- `set` is called; whether it succeeds or throws (caught, logged),
        -- processing continues to the handler phase.
        ConsumerEv.hasCheck :: ConsumerEv.setKey :: handlerPhase data b.handler
    | Except.error _ =>
        -- `has` threw: caught by the inner catch, processing continues
        -- without calling `set`.
        ConsumerEv.hasCheck :: handlerPhase data b.handler
  else
    handlerPhase data b.handler

/-- Basic consumer message callback (consumer.ts basic variant): one outer
try/catch around the whole body. A `JSON.parse` failure, a store error, or
a handler error all reach the same catch, which nacks. -/
def basicOnMessage (idem : Bool) (b : MsgBehavior) : List ConsumerEv :=
  match b.parseRes with
  | none => [ConsumerEv.nack]
  | some v =>
    let data := ConsumedData.parsed v
    if idem then
      match b.hasRes with
      | Except.error _ => [ConsumerEv.hasCheck, ConsumerEv.nack]
      | Except.ok true => [ConsumerEv.hasCheck, ConsumerEv.ack]
      | Except.ok false =>
          match b.setRes with
          | Except.error _ => [ConsumerEv.hasCheck, ConsumerEv.setKey, ConsumerEv.nack]
          | Except.ok _ =>
              ConsumerEv.hasCheck :: ConsumerEv.setKey :: handlerPhase data b.handler
    else
      handlerPhase data b.handler

/-- Whether a trace contains a user-handler invocation. -/
def handlerRan (t : List ConsumerEv) : Bool :=
  t.any fun e => match e with
    | ConsumerEv.handlerInvoked _ => true
    | _ => false

/-- Whether a trace contains `message.ack()`. -/
def acked (t : List ConsumerEv) : Bool :=
  t.any fun e => match e with
    | ConsumerEv.ack => true
    | _ => false

/-- Whether a trace contains `message.nack()`. -/
def nacked (t : List ConsumerEv) : Bool :=
  t.any fun e => match e with
    | ConsumerEv.nack => true
    | _ => false

/-! ## Consumer lifecycle: store selection and `stop()` -/

/-- Where the consumer's idempotency store came from (consumer.ts, the
`if (idempotencyEnabled)` block of `createConsumer`): a caller-supplied
instance, a `RedisIdempotencyStore` the consumer built from the `redis`
option, or the in-memory fallback the consumer built itself. -/
inductive StoreOrigin where
  | injected
  | redisOwned
  | memoryOwned
deriving DecidableEq, Repr

/-- Store selection in `createConsumer`: no store unless idempotency is
enabled; then the provided store wins, else a Redis store is created from
the `redis` option, else the in-memory fallback. -/
def chooseStore (idempotencyEnabled providedStore redis : Bool) : Option StoreOrigin :=
  if idempotencyEnabled then
    if providedStore then some StoreOrigin.injected
    else if redis then some StoreOrigin.redisOwned
    else some StoreOrigin.memoryOwned
  else none

/-- Externally visible actions of `consumer.stop()`: closing the transport
subscription handle and calling `close()` on the idempotency store. -/
inductive StopEv where
  | closeSub
  | closeStore
deriving DecidableEq, Repr

/-- Mutable consumer state relevant to the lifecycle methods. -/
structure ConsState where
  isStarted : Bool
  store : Option StoreOrigin
deriving DecidableEq, Repr

/-- `consumer.start()` (both variants): `if (isStarted) return;` then sets
the flag and attaches the message/error listeners (not visible here). -/
def consStart (s : ConsState) : ConsState :=
  if s.isStarted then s else { s with isStarted := true }

/-- `consumer.stop()` (both variants): `if (!isStarted) return;` — otherwise
clear the flag, `await subscription.close()`, and then
`if (idempotencyStore) await idempotencyStore.close()` regardless of where
the store came from. Returns the new state and the actions performed. -/
def consStop (s : ConsState) : ConsState × List StopEv :=
  if s.isStarted then
    ({ s with isStarted := false },
      StopEv.closeSub ::
        (match s.store with
          | some _ => [StopEv.closeStore]
          | none => []))
  else (s, [])

/-! ## Publisher: retry with exponential backoff -/

/-- Behavior of one iteration of the retry loop's try block (publisher.ts
enhanced variant, `publishWithRetry`): `JSON.stringify` may throw, then the
ordering-key selector may throw, then the transport `publishMessage` call
either resolves with a message id or rejects. Thrown values and message ids
are `String`s. -/
inductive AttemptOutcome where
  | serThrow (e : String)
  | selThrow (e : String)
  | pubResult (r : Except String String)
deriving Repr

/-- Observable outcome of a `publishWithRetry` run: the settled result
(`Except.error none` models JS rethrowing the initial `undefined` when the
loop body never ran), how many times the transport publish was invoked, and
how many retry waits (`await sleep(delay)`) were performed. -/
structure PublishOutcome where
  result : Except (Option String) String
  transportCalls : Nat
  retryWaits : Nat
deriving Repr

/-- The retry loop of `publishWithRetry`, by remaining iterations:
`remaining` counts loop iterations still allowed, `attempt` is the current
index, `lastErr` the `lastError` variable. On the final allowed iteration
(`remaining = 1`) an error breaks out without sleeping; earlier iterations
sleep and continue. A successful transport call returns at once. -/
def pwrLoop (step : Nat → AttemptOutcome) :
    Nat → Nat → Option String → PublishOutcome
  | 0, _, lastErr => { result := Except.error lastErr, transportCalls := 0, retryWaits := 0 }
  | r + 1, attempt, _ =>
    match step attempt, r with
    | AttemptOutcome.pubResult (Except.ok id), _ =>
        { result := Except.ok id, transportCalls := 1, retryWaits := 0 }
    | AttemptOutcome.serThrow e, 0 =>
        { result := Except.error (some e), transportCalls := 0, retryWaits := 0 }
    | AttemptOutcome.selThrow e, 0 =>
        { result := Except.error (some e), transportCalls := 0, retryWaits := 0 }
    | AttemptOutcome.pubResult (Except.error e), 0 =>
        { result := Except.error (some e), transportCalls := 1, retryWaits := 0 }
    | AttemptOutcome.serThrow e, r' + 1 =>
        let rest := pwrLoop step (r' + 1) (attempt + 1) (some e)
        { result := rest.result, transportCalls := rest.transportCalls,
          retryWaits := rest.retryWaits + 1 }
    | AttemptOutcome.selThrow e, r' + 1 =>
        let rest := pwrLoop step (r' + 1) (attempt + 1) (some e)
        { result := rest.result, transportCalls := rest.transportCalls,
          retryWaits := rest.retryWaits + 1 }
    | AttemptOutcome.pubResult (Except.error e), r' + 1 =>
        let rest := pwrLoop step (r' + 1) (attempt + 1) (some e)
        { result := rest.result, transportCalls := rest.transportCalls + 1,
          retryWaits := rest.retryWaits + 1 }

/-- `publishWithRetry` (publisher.ts enhanced variant): run the loop for
`maxAttempts` iterations starting at attempt 0 with `lastError` unset. -/
def publishWithRetry (step : Nat → AttemptOutcome) (maxAttempts : Nat) : PublishOutcome :=
  pwrLoop step maxAttempts 0 none

/-- Basic publisher `publish` (publisher.ts basic variant): serialize, merge
attributes, call the ordering-key selector, then a single transport publish
call; any throw propagates directly. Returns the settled result and how many
times the transport publish was invoked. -/
def basicPublish (ser : Except String Unit) (sel : Except String (Option String))
    (transport : Except String String) : Except String String × Nat :=
  match ser with
  | Except.error e => (Except.error e, 0)
  | Except.ok _ =>
    match sel with
    | Except.error e => (Except.error e, 0)
    | Except.ok _ => (transport, 1)

/-! ## Backoff delay -/

/-- `calculateRetryDelay` (publisher.ts enhanced variant):
`Math.floor(Math.min(maxDelayMs, initialDelayMs * factor ** attempt) +
Math.random() * initialDelayMs)`, with `Math.random()` modelled by the
oracle `rand` in `[0, 1)`. Arithmetic is exact (over `ℚ`). -/
def calculateRetryDelay (attempt : Nat) (initialDelayMs maxDelayMs factor : ℚ)
    (rand : ℚ) : ℤ :=
  Int.floor (min maxDelayMs (initialDelayMs * factor ^ attempt) + rand * initialDelayMs)

/-! ## In-memory idempotency store -/

/-- The `InMemoryIdempotencyStore`'s map from key to absolute expiry
timestamp (ms), as an association list with unique keys. -/
abbrev MemStore := List (String × Int)

/-- `Map.get`: first (unique) binding for the key. -/
def msLookup (s : MemStore) (k : String) : Option Int :=
  (s.find? fun p => p.1 == k).map fun p => p.2

/-- `Map.delete`: remove the binding for the key. -/
def msDelete (s : MemStore) (k : String) : MemStore :=
  s.filter fun p => !(p.1 == k)

/-- `set(key, ttl)`: `store.set(key, Date.now() + ttl)`; `now` is the oracle
for `Date.now()`. Keys stay unique by replacing any old binding. -/
def msSet (s : MemStore) (k : String) (ttl now : Int) : MemStore :=
  (k, now + ttl) :: msDelete s k

/-- Default TTL of `set` when none is given: 6 hours in ms. -/
def msDefaultTtl : Int := 6 * 60 * 60 * 1000

/-- `has(key)`: absent keys report `false`; an expired binding
(`Date.now() > expiry`) is deleted lazily and reports `false`; otherwise
`true`. Returns the answer and the store after the access. -/
def msHas (s : MemStore) (k : String) (now : Int) : Bool × MemStore :=
  match msLookup s k with
  | none => (false, s)
  | some expiry => if now > expiry then (false, msDelete s k) else (true, s)

/-- The background sweep (`startCleanup`): delete every binding whose expiry
has passed (`now > expiry`) at sweep time `now`. -/
def msSweep (s : MemStore) (now : Int) : MemStore :=
  s.filter fun p => !(now > p.2)

/-! ## Theorems: consumer pipeline -/

lemma handlerRan_hasCheck (l : List ConsumerEv) :
    handlerRan (ConsumerEv.hasCheck :: l) = handlerRan l := by
  simp [handlerRan]

lemma handlerRan_setKey (l : List ConsumerEv) :
    handlerRan (ConsumerEv.setKey :: l) = handlerRan l := by
  simp [handlerRan]

lemma acked_hasCheck (l : List ConsumerEv) :
    acked (ConsumerEv.hasCheck :: l) = acked l := by
  simp [acked]

lemma acked_setKey (l : List ConsumerEv) :
    acked (ConsumerEv.setKey :: l) = acked l := by
  simp [acked]

lemma nacked_hasCheck (l : List ConsumerEv) :
    nacked (ConsumerEv.hasCheck :: l) = nacked l := by
  simp [nacked]

lemma nacked_setKey (l : List ConsumerEv) :
    nacked (ConsumerEv.setKey :: l) = nacked l := by
  simp [nacked]

/-- **C1** Idempotency dedupe: with idempotency enabled, whenever the
store's `has` check answers `true` for the delivery's key, the user handler
is never invoked and the message is acked — in the enhanced variant for any
payload, and in the basic variant for any payload that parses (the basic
variant only reaches the check after a successful parse). -/
theorem dedupe_acks_without_handler (b : MsgBehavior) (v : String)
    (h : b.hasRes = Except.ok true) :
    handlerRan (enhancedOnMessage true b) = false ∧
    acked (enhancedOnMessage true b) = true ∧
    (b.parseRes = some v →
      handlerRan (basicOnMessage true b) = false ∧
      acked (basicOnMessage true b) = true) := by
  refine ⟨?_, ?_, fun hp => ⟨?_, ?_⟩⟩
  · simp [enhancedOnMessage, h, handlerRan]
  · simp [enhancedOnMessage, h, acked]
  · simp [basicOnMessage, h, hp, handlerRan]
  · simp [basicOnMessage, h, hp, acked]

/-- Witness for C1 at a concrete duplicate delivery. -/
theorem dedupe_acks_without_handler_witness :
    handlerRan (enhancedOnMessage true
      { parseRes := some "p", rawStr := "r", hasRes := Except.ok true,
        setRes := Except.ok (), handler := some (Except.ok ()) }) = false ∧
    acked (enhancedOnMessage true
      { parseRes := some "p", rawStr := "r", hasRes := Except.ok true,
        setRes := Except.ok (), handler := some (Except.ok ()) }) = true ∧
    handlerRan (basicOnMessage true
      { parseRes := some "p", rawStr := "r", hasRes := Except.ok true,
        setRes := Except.ok (), handler := some (Except.ok ()) }) = false ∧
    acked (basicOnMessage true
      { parseRes := some "p", rawStr := "r", hasRes := Except.ok true,
        setRes := Except.ok (), handler := some (Except.ok ()) }) = true := by
  have h := dedupe_acks_without_handler
    { parseRes := some "p", rawStr := "r", hasRes := Except.ok true,
      setRes := Except.ok (), handler := some (Except.ok ()) } "p" rfl
  exact ⟨h.1, h.2.1, (h.2.2 rfl).1, (h.2.2 rfl).2⟩

/-- **C2 counterexample**: in the basic consumer variant a `has` error is
caught only by the single outer try/catch, which nacks; the handler is not
invoked, contradicting the claim that a store error leaves the handler
invoked as if `has` had returned `false`. -/
theorem basic_store_error_not_fail_open :
    handlerRan (basicOnMessage true
      { parseRes := some "p", rawStr := "p", hasRes := Except.error "boom",
        setRes := Except.ok (), handler := some (Except.ok ()) }) = false ∧
    nacked (basicOnMessage true
      { parseRes := some "p", rawStr := "p", hasRes := Except.error "boom",
        setRes := Except.ok (), handler := some (Except.ok ()) }) = true ∧
    basicOnMessage true
      { parseRes := some "p", rawStr := "p", hasRes := Except.error "boom",
        setRes := Except.ok (), handler := some (Except.ok ()) }
      = [ConsumerEv.hasCheck, ConsumerEv.nack] :=
  ⟨rfl, rfl, rfl⟩

/-- **C2 (amended)**: in the enhanced consumer variant the store's
`has`/`set` errors are fail-open: a throwing `has` leaves the
handler-invocation, ack and nack outcomes exactly as if `has` had returned
`false` (and the handler, if registered, runs); a throwing `set` leaves the
whole visible trace unchanged. (In the basic variant a store error instead
reaches the outer catch, which nacks without invoking the handler.) -/
theorem enhanced_store_error_fail_open (b : MsgBehavior) (e : String)
    (r : Except String Unit) :
    (b.hasRes = Except.error e →
      (b.handler = some r → handlerRan (enhancedOnMessage true b) = true) ∧
      handlerRan (enhancedOnMessage true b) =
        handlerRan (enhancedOnMessage true
          { b with hasRes := Except.ok false, setRes := Except.ok () }) ∧
      acked (enhancedOnMessage true b) =
        acked (enhancedOnMessage true
          { b with hasRes := Except.ok false, setRes := Except.ok () }) ∧
      nacked (enhancedOnMessage true b) =
        nacked (enhancedOnMessage true
          { b with hasRes := Except.ok false, setRes := Except.ok () })) ∧
    (b.hasRes = Except.ok false → b.setRes = Except.error e →
      enhancedOnMessage true b =
        enhancedOnMessage true { b with setRes := Except.ok () }) := by
  constructor
  · intro hh
    refine ⟨fun hr => ?_, ?_, ?_, ?_⟩
    · cases r with
      | ok u => simp [enhancedOnMessage, hh, hr, handlerPhase, handlerRan]
      | error er => simp [enhancedOnMessage, hh, hr, handlerPhase, handlerRan]
    · simp [enhancedOnMessage, hh, handlerRan_hasCheck, handlerRan_setKey]
      rfl
    · simp [enhancedOnMessage, hh, acked_hasCheck, acked_setKey]
      rfl
    · simp [enhancedOnMessage, hh, nacked_hasCheck, nacked_setKey]
      rfl
  · intro hh hs
    simp [enhancedOnMessage, hh, hs]
    rfl

/-- Witness for C2 (amended) at a concrete behavior. -/
theorem enhanced_store_error_fail_open_witness :
    handlerRan (enhancedOnMessage true
      { parseRes := some "p", rawStr := "p", hasRes := Except.error "boom",
        setRes := Except.ok (), handler := some (Except.ok ()) }) = true ∧
    enhancedOnMessage true
      { parseRes := some "p", rawStr := "p", hasRes := Except.ok false,
        setRes := Except.error "boom", handler := some (Except.ok ()) } =
      enhancedOnMessage true
        { parseRes := some "p", rawStr := "p", hasRes := Except.ok false,
          setRes := Except.ok (), handler := some (Except.ok ()) } := by
  have h1 := (enhanced_store_error_fail_open
    { parseRes := some "p", rawStr := "p", hasRes := Except.error "boom",
      setRes := Except.ok (), handler := some (Except.ok ()) } "boom"
    (Except.ok ())).1 rfl
  have h2 := (enhanced_store_error_fail_open
    { parseRes := some "p", rawStr := "p", hasRes := Except.ok false,
      setRes := Except.error "boom", handler := some (Except.ok ()) } "boom"
    (Except.ok ())).2 rfl rfl
  exact ⟨h1.1 rfl, h2⟩

/-- **C6 counterexample**: in the basic consumer variant a `JSON.parse`
failure has no fallback — it reaches the outer catch, the message is nacked
and the handler never runs, contradicting the claim that a parse failure is
recovered in place and never by itself causes a nack. -/
theorem basic_parse_failure_nacks :
    basicOnMessage true
      { parseRes := none, rawStr := "not-json", hasRes := Except.ok false,
        setRes := Except.ok (), handler := some (Except.ok ()) }
      = [ConsumerEv.nack] ∧
    handlerRan (basicOnMessage true
      { parseRes := none, rawStr := "not-json", hasRes := Except.ok false,
        setRes := Except.ok (), handler := some (Except.ok ()) }) = false ∧
    nacked (basicOnMessage true
      { parseRes := none, rawStr := "not-json", hasRes := Except.ok false,
        setRes := Except.ok (), handler := some (Except.ok ()) }) = true :=
  ⟨rfl, rfl, rfl⟩

/-- **C6 (amended)**: in the enhanced consumer variant a payload that fails
to parse is recovered in place — the raw UTF-8 string is handed to the rest
of the pipeline, the idempotency check and the handler still run, and the
parse failure by itself causes neither a nack nor an ack. (The basic variant
instead nacks such a message without invoking the handler.) -/
theorem enhanced_parse_fallback (b : MsgBehavior) (r : Except String Unit)
    (hp : b.parseRes = none) (hh : b.hasRes = Except.ok false)
    (_hs : b.setRes = Except.ok ()) (hr : b.handler = some r) :
    ConsumerEv.handlerInvoked (ConsumedData.raw b.rawStr) ∈ enhancedOnMessage true b ∧
    ConsumerEv.hasCheck ∈ enhancedOnMessage true b ∧
    (r = Except.ok () →
      nacked (enhancedOnMessage true b) = false ∧
      acked (enhancedOnMessage true b) = false) := by
  refine ⟨?_, ?_, fun hok => ⟨?_, ?_⟩⟩ <;>
    cases r <;>
    simp_all [enhancedOnMessage, dataOf, handlerPhase, nacked, acked]

/-- Witness for C6 (amended) at a concrete non-JSON payload. -/
theorem enhanced_parse_fallback_witness :
    ConsumerEv.handlerInvoked (ConsumedData.raw "not-json") ∈
      enhancedOnMessage true
        { parseRes := none, rawStr := "not-json", hasRes := Except.ok false,
          setRes := Except.ok (), handler := some (Except.ok ()) } ∧
    nacked (enhancedOnMessage true
      { parseRes := none, rawStr := "not-json", hasRes := Except.ok false,
        setRes := Except.ok (), handler := some (Except.ok ()) }) = false := by
  have h := enhanced_parse_fallback
    { parseRes := none, rawStr := "not-json", hasRes := Except.ok false,
      setRes := Except.ok (), handler := some (Except.ok ()) }
    (Except.ok ()) rfl rfl rfl rfl
  exact ⟨h.1, (h.2.2 rfl).1⟩

/-- **C4 counterexample**: a started consumer whose store was injected via
the `idempotencyStore` option (so `chooseStore` picks the caller-supplied
instance) still calls `close()` on that store during `stop()`, contradicting
the claim that injected stores are never closed. -/
theorem stop_closes_injected_store :
    (consStop { isStarted := true, store := chooseStore true true false }).2
      = [StopEv.closeSub, StopEv.closeStore] ∧
    StopEv.closeStore ∈
      (consStop { isStarted := true, store := chooseStore true true false }).2 := by
  decide

/-- **C4 (amended)**: `stop()` on a started consumer closes the transport
subscription handle and then calls `close()` on the idempotency store
whenever the consumer holds one — whether the store was created internally
or injected by the caller; only a consumer without a store skips the store
close. -/
theorem stop_closes_any_store (s : ConsState) (o : StoreOrigin)
    (h : s.isStarted = true) :
    (consStop s).2
      = StopEv.closeSub ::
          (match s.store with
            | some _ => [StopEv.closeStore]
            | none => []) ∧
    (s.store = some o → (consStop s).2 = [StopEv.closeSub, StopEv.closeStore]) := by
  refine ⟨?_, fun hst => ?_⟩
  · simp [consStop, h]
  · simp [consStop, h, hst]

/-- Witness for C4 (amended) at a started consumer with an injected store. -/
theorem stop_closes_any_store_witness :
    (consStop { isStarted := true, store := some StoreOrigin.injected }).2
      = [StopEv.closeSub, StopEv.closeStore] :=
  (stop_closes_any_store
    { isStarted := true, store := some StoreOrigin.injected }
    StoreOrigin.injected rfl).2 rfl

/-- **C10** stop() before start() is a complete no-op: with `isStarted`
still false (never started, or reset by a prior `stop()`), `stop()` returns
immediately — it neither closes the transport subscription nor calls
`close()` on any idempotency store (injected or internally created), and the
consumer state is unchanged; likewise a second `stop()` right after a
`start()`/`stop()` pair performs no actions. -/
theorem stop_before_start_noop (st : Option StoreOrigin) (s : ConsState) :
    (consStop { isStarted := false, store := st }).2 = [] ∧
    (consStop { isStarted := false, store := st }).1
      = { isStarted := false, store := st } ∧
    (consStop (consStop (consStart s)).1).2 = [] := by
  obtain ⟨b, st'⟩ := s
  cases b <;> simp [consStart, consStop]

/-! ## Theorems: in-memory store TTL -/

lemma msLookup_msSet (s : MemStore) (k : String) (t T0 : Int) :
    msLookup (msSet s k t T0) k = some (T0 + t) := by
  simp [msLookup, msSet, List.find?]

lemma msLookup_msDelete (s : MemStore) (k : String) :
    msLookup (msDelete s k) k = none := by
  induction s with
  | nil => rfl
  | cons p l ih =>
    cases hpk : p.1 == k with
    | true =>
      rw [msDelete] at ih ⊢
      rw [List.filter_cons]
      simp only [hpk, Bool.not_true, cond_false]
      exact ih
    | false =>
      rw [msDelete] at ih ⊢
      rw [List.filter_cons]
      simp only [hpk, Bool.not_false, cond_true, msLookup, List.find?] at ih ⊢
      simp [hpk, ih]

lemma msLookup_filter_none (s : MemStore) (k : String) (pr : String × Int → Bool)
    (h : msLookup s k = none) : msLookup (s.filter pr) k = none := by
  induction s with
  | nil => rfl
  | cons p l ih =>
    cases hpk : p.1 == k with
    | true => simp [msLookup, List.find?, hpk] at h
    | false =>
      have h' : msLookup l k = none := by
        simpa [msLookup, List.find?, hpk] using h
      cases hpr : pr p with
      | true => simpa [msLookup, List.filter_cons, hpr, List.find?, hpk] using ih h'
      | false => simpa [List.filter_cons, hpr] using ih h'

lemma msHas_of_lookup_none (s : MemStore) (k : String) (now : Int)
    (h : msLookup s k = none) : msHas s k now = (false, s) := by
  simp [msHas, h]

lemma msHas_of_lookup_some (s : MemStore) (k : String) (now expiry : Int)
    (h : msLookup s k = some expiry) :
    msHas s k now = if now > expiry then (false, msDelete s k) else (true, s) := by
  simp [msHas, h]

lemma msSweep_msSet_kept (s : MemStore) (k : String) (t T0 sw : Int)
    (h : ¬ sw > T0 + t) :
    msSweep (msSet s k t T0) sw = (k, T0 + t) :: msSweep (msDelete s k) sw := by
  simp [msSweep, msSet, List.filter_cons, h]

lemma msSweep_msSet_dropped (s : MemStore) (k : String) (t T0 sw : Int)
    (h : sw > T0 + t) :
    msSweep (msSet s k t T0) sw = msSweep (msDelete s k) sw := by
  simp [msSweep, msSet, List.filter_cons, h]

lemma msLookup_msSweep_msDelete (s : MemStore) (k : String) (sw : Int) :
    msLookup (msSweep (msDelete s k) sw) k = none :=
  msLookup_filter_none _ _ _ (msLookup_msDelete s k)

/-- **C8** Local-memory TTL expiry: after `set(k, t)` at time `T0` (expiry
`T0 + t`), a `has(k)` at any query time strictly before `T0 + t` answers
`true`, and at any query time strictly after `T0 + t` answers `false` and
deletes the entry — whether or not the background sweep ran in between (the
sweep, at any time `sw ≤ q`, never removes a live entry and only removes
already-expired ones). -/
theorem memory_store_ttl_expiry (s : MemStore) (k : String) (t T0 q sw : Int)
    (swept : Bool) (hsw : sw ≤ q) :
    (q < T0 + t →
      (msHas (if swept then msSweep (msSet s k t T0) sw else msSet s k t T0) k q).1
        = true) ∧
    (q > T0 + t →
      (msHas (if swept then msSweep (msSet s k t T0) sw else msSet s k t T0) k q).1
        = false ∧
      msLookup
        (msHas (if swept then msSweep (msSet s k t T0) sw else msSet s k t T0) k q).2
        k = none) := by
  cases swept with
  | false =>
    constructor
    · intro hq
      have hexp : ¬ q > T0 + t := by omega
      simp [msHas, msLookup_msSet, hexp]
    · intro hq
      refine ⟨?_, ?_⟩ <;> simp [msHas, msLookup_msSet, hq, msLookup_msDelete]
  | true =>
    by_cases hdrop : sw > T0 + t
    · constructor
      · intro hq; omega
      · intro hq
        have hn := msLookup_msSweep_msDelete s k sw
        rw [if_pos rfl, msSweep_msSet_dropped s k t T0 sw hdrop,
          msHas_of_lookup_none _ _ _ hn]
        exact ⟨rfl, hn⟩
    · rw [if_pos rfl, msSweep_msSet_kept s k t T0 sw hdrop]
      have hlk : msLookup ((k, T0 + t) :: msSweep (msDelete s k) sw) k
          = some (T0 + t) := by
        simp [msLookup, List.find?]
      constructor
      · intro hq
        have hexp : ¬ q > T0 + t := by omega
        simp [msHas, hlk, hexp]
      · intro hq
        rw [msHas_of_lookup_some _ k q (T0 + t) hlk, if_pos hq]
        exact ⟨rfl, msLookup_msDelete _ k⟩

/-- Witness for C8: key set at time 0 with TTL 1000; `has` is true at 500
(even after a sweep at 100) and false at 1500. -/
theorem memory_store_ttl_expiry_witness :
    (msHas (msSweep (msSet [] "k" 1000 0) 100) "k" 500).1 = true ∧
    (msHas (msSet [] "k" 1000 0) "k" 1500).1 = false := by
  have h1 := (memory_store_ttl_expiry [] "k" 1000 0 500 100 true
    (by decide)).1 (by decide)
  have h2 := ((memory_store_ttl_expiry [] "k" 1000 0 1500 100 false
    (by decide)).2 (by decide)).1
  exact ⟨by simpa using h1, by simpa using h2⟩

/-- **C9** (implicit) failure suppression under idempotency: with
idempotency enabled, the visible trace of a fresh delivery is exactly
`has`-check, then `set`, then the handler invocation, then (on handler
error) `nack` — so `set(key)` happens before the handler runs; the
in-memory store then reports the key as present at every time before the
TTL expires; and a redelivery whose `has` check answers `true` is acked
without the handler ever being invoked. -/
theorem handler_failure_suppression
    (b1 b2 : MsgBehavior) (e : String) (s : MemStore) (k : String)
    (t T0 q : Int)
    (h1 : b1.hasRes = Except.ok false) (_h2 : b1.setRes = Except.ok ())
    (h3 : b1.handler = some (Except.error e))
    (h4 : b2.hasRes = Except.ok true) (hq : q < T0 + t) :
    enhancedOnMessage true b1
      = [ConsumerEv.hasCheck, ConsumerEv.setKey,
         ConsumerEv.handlerInvoked (dataOf b1), ConsumerEv.nack] ∧
    (msHas (msSet s k t T0) k q).1 = true ∧
    handlerRan (enhancedOnMessage true b2) = false ∧
    acked (enhancedOnMessage true b2) = true := by
  refine ⟨?_, ?_, ?_, ?_⟩
  · simp [enhancedOnMessage, h1, h3, handlerPhase]
  · have hexp : ¬ q > T0 + t := by omega
    simp [msHas, msLookup_msSet, hexp]
  · simp [enhancedOnMessage, h4, handlerRan]
  · simp [enhancedOnMessage, h4, acked]

/-- Witness for C9 at a concrete failed-then-redelivered message. -/
theorem handler_failure_suppression_witness :
    enhancedOnMessage true
      { parseRes := some "p", rawStr := "p", hasRes := Except.ok false,
        setRes := Except.ok (), handler := some (Except.error "handler-fail") }
      = [ConsumerEv.hasCheck, ConsumerEv.setKey,
         ConsumerEv.handlerInvoked (ConsumedData.parsed "p"), ConsumerEv.nack] ∧
    (msHas (msSet [] "m1" 1000 0) "m1" 500).1 = true ∧
    handlerRan (enhancedOnMessage true
      { parseRes := some "p", rawStr := "p", hasRes := Except.ok true,
        setRes := Except.ok (), handler := some (Except.error "handler-fail") })
      = false ∧
    acked (enhancedOnMessage true
      { parseRes := some "p", rawStr := "p", hasRes := Except.ok true,
        setRes := Except.ok (), handler := some (Except.error "handler-fail") })
      = true :=
  handler_failure_suppression
    { parseRes := some "p", rawStr := "p", hasRes := Except.ok false,
      setRes := Except.ok (), handler := some (Except.error "handler-fail") }
    { parseRes := some "p", rawStr := "p", hasRes := Except.ok true,
      setRes := Except.ok (), handler := some (Except.error "handler-fail") }
    "handler-fail" [] "m1" 1000 0 500 rfl rfl rfl rfl (by decide)

/-! ## Theorems: publisher retry -/

lemma pwrLoop_transportCalls_le (step : Nat → AttemptOutcome) :
    ∀ (r a : Nat) (le : Option String),
      (pwrLoop step r a le).transportCalls ≤ r := by
  intro r
  induction r with
  | zero => intro a le; simp [pwrLoop]
  | succ r ih =>
    intro a le
    cases hs : step a with
    | serThrow e =>
      cases r with
      | zero => simp [pwrLoop, hs]
      | succ r' =>
        have h := ih (a + 1) (some e)
        simp [pwrLoop, hs]
        omega
    | selThrow e =>
      cases r with
      | zero => simp [pwrLoop, hs]
      | succ r' =>
        have h := ih (a + 1) (some e)
        simp [pwrLoop, hs]
        omega
    | pubResult res =>
      cases res with
      | ok id =>
        cases r with
        | zero => simp [pwrLoop, hs]
        | succ r' => simp [pwrLoop, hs]
      | error e =>
        cases r with
        | zero => simp [pwrLoop, hs]
        | succ r' =>
          have h := ih (a + 1) (some e)
          simp [pwrLoop, hs]
          omega

lemma pwrLoop_all_fail (step : Nat → AttemptOutcome) (errs : Nat → String) :
    ∀ (r a : Nat) (le : Option String),
      (∀ i, a ≤ i → i ≤ a + r →
        step i = AttemptOutcome.pubResult (Except.error (errs i))) →
      pwrLoop step (r + 1) a le =
        { result := Except.error (some (errs (a + r))), transportCalls := r + 1,
          retryWaits := r } := by
  intro r
  induction r with
  | zero =>
    intro a le h
    have ha := h a (le_refl a) (by omega)
    simp [pwrLoop, ha]
  | succ r' ih =>
    intro a le h
    have ha := h a (le_refl a) (by omega)
    have hrec := ih (a + 1) (some (errs a))
      (fun i h1 h2 => h i (by omega) (by omega))
    rw [show a + 1 + r' = a + (r' + 1) by omega] at hrec
    simp [pwrLoop, ha, hrec]

lemma pwrLoop_success (step : Nat → AttemptOutcome) (errs : Nat → String)
    (id : String) :
    ∀ (k r a : Nat) (le : Option String),
      k < r →
      (∀ i, a ≤ i → i < a + k →
        step i = AttemptOutcome.pubResult (Except.error (errs i))) →
      step (a + k) = AttemptOutcome.pubResult (Except.ok id) →
      pwrLoop step r a le =
        { result := Except.ok id, transportCalls := k + 1, retryWaits := k } := by
  intro k
  induction k with
  | zero =>
    intro r a le hk hfail hok
    obtain ⟨r', rfl⟩ : ∃ r', r = r' + 1 := ⟨r - 1, by omega⟩
    have ha : step a = AttemptOutcome.pubResult (Except.ok id) := by simpa using hok
    cases r' with
    | zero => simp [pwrLoop, ha]
    | succ r'' => simp [pwrLoop, ha]
  | succ k' ih =>
    intro r a le hk hfail hok
    obtain ⟨r', rfl⟩ : ∃ r', r = r' + 2 := ⟨r - 2, by omega⟩
    have ha := hfail a (le_refl a) (by omega)
    have hrec := ih (r' + 1) (a + 1) (some (errs a)) (by omega)
      (fun i h1 h2 => hfail i (by omega) (by omega))
      (by rw [show a + 1 + k' = a + (k' + 1) by omega]; exact hok)
    simp [pwrLoop, ha, hrec]

lemma pwrLoop_selThrow (step : Nat → AttemptOutcome) (e : String)
    (h : ∀ i, step i = AttemptOutcome.selThrow e) :
    ∀ (r a : Nat) (le : Option String),
      pwrLoop step (r + 1) a le =
        { result := Except.error (some e), transportCalls := 0, retryWaits := r } := by
  intro r
  induction r with
  | zero => intro a le; simp [pwrLoop, h a]
  | succ r' ih => intro a le; simp [pwrLoop, h a, ih (a + 1)]

/-- **C3** Retry bound and final error: the transport publish is invoked at
most `maxAttempts` times; if every attempt fails, `publish()` rejects with
the error of the last attempt after exactly `maxAttempts` transport calls;
if the attempts fail up to index `k` and attempt `k` succeeds
(`k < maxAttempts`), `publish()` resolves with that attempt's message id
after exactly `k + 1` transport calls — no further attempt is made. -/
theorem publish_retry_bound (step : Nat → AttemptOutcome) (n k : Nat)
    (errs : Nat → String) (id : String) :
    (publishWithRetry step n).transportCalls ≤ n ∧
    (0 < n →
      (∀ i, i < n → step i = AttemptOutcome.pubResult (Except.error (errs i))) →
      (publishWithRetry step n).result = Except.error (some (errs (n - 1))) ∧
      (publishWithRetry step n).transportCalls = n) ∧
    (k < n →
      (∀ i, i < k → step i = AttemptOutcome.pubResult (Except.error (errs i))) →
      step k = AttemptOutcome.pubResult (Except.ok id) →
      (publishWithRetry step n).result = Except.ok id ∧
      (publishWithRetry step n).transportCalls = k + 1) := by
  refine ⟨pwrLoop_transportCalls_le step n 0 none,
    fun hn hfail => ?_, fun hk hfail hok => ?_⟩
  · obtain ⟨m, rfl⟩ : ∃ m, n = m + 1 := ⟨n - 1, by omega⟩
    have h := pwrLoop_all_fail step errs m 0 none
      (fun i h1 h2 => hfail i (by omega))
    rw [publishWithRetry, h]
    simp
  · have h := pwrLoop_success step errs id k n 0 none hk
      (fun i h1 h2 => hfail i (by omega)) (by simpa using hok)
    rw [publishWithRetry, h]
    exact ⟨rfl, rfl⟩

/-- Witness for C3: the E2E scenario — transport rejects twice then resolves
`"id-1"` with `maxAttempts = 3`: `publish()` resolves `"id-1"` and the
transport was called exactly 3 times; and with `maxAttempts = 2` and every
attempt failing, `publish()` rejects with the last error. -/
theorem publish_retry_bound_witness :
    (publishWithRetry
        (fun i => if i < 2 then AttemptOutcome.pubResult (Except.error "boom")
          else AttemptOutcome.pubResult (Except.ok "id-1")) 3).result
      = Except.ok "id-1" ∧
    (publishWithRetry
        (fun i => if i < 2 then AttemptOutcome.pubResult (Except.error "boom")
          else AttemptOutcome.pubResult (Except.ok "id-1")) 3).transportCalls = 3 ∧
    (publishWithRetry
        (fun _ => AttemptOutcome.pubResult (Except.error "boom")) 2).result
      = Except.error (some "boom") := by
  have h1 := (publish_retry_bound
    (fun i => if i < 2 then AttemptOutcome.pubResult (Except.error "boom")
      else AttemptOutcome.pubResult (Except.ok "id-1")) 3 2
    (fun _ => "boom") "id-1").2.2 (by omega)
    (fun i hi => by interval_cases i <;> rfl) rfl
  have h2 := (publish_retry_bound
    (fun _ => AttemptOutcome.pubResult (Except.error "boom")) 2 0
    (fun _ => "boom") "id-1").2.1 (by omega) (fun i _ => rfl)
  exact ⟨h1.1, h1.2, h2.1⟩

/-- **C5 counterexample**: with the ordering-key selector throwing
deterministically (`selThrow` every attempt) and `maxAttempts = 3`, the
enhanced publisher performs 2 retry waits before rejecting — the error does
not propagate immediately and retries do happen (though no transport publish
attempt is ever made). -/
theorem selector_error_is_retried :
    (publishWithRetry (fun _ => AttemptOutcome.selThrow "sel-boom") 3).retryWaits
      = 2 ∧
    (publishWithRetry (fun _ => AttemptOutcome.selThrow "sel-boom") 3).transportCalls
      = 0 ∧
    (publishWithRetry (fun _ => AttemptOutcome.selThrow "sel-boom") 3).result
      = Except.error (some "sel-boom") :=
  ⟨rfl, rfl, rfl⟩

/-- **C5 (amended)**: a throwing ordering-key selector never causes a
transport publish attempt. In the basic publisher the error propagates
immediately with no transport call; in the enhanced publisher the selector
call sits inside the retried try block, so the error is treated like any
attempt failure — the loop performs `maxAttempts - 1` retry waits and then
rejects with the selector error, still with zero transport calls. -/
theorem selector_error_no_transport (step : Nat → AttemptOutcome) (e : String)
    (n : Nat) (tr : Except String String)
    (h : ∀ i, step i = AttemptOutcome.selThrow e) (hn : 0 < n) :
    (publishWithRetry step n).transportCalls = 0 ∧
    (publishWithRetry step n).result = Except.error (some e) ∧
    (publishWithRetry step n).retryWaits = n - 1 ∧
    basicPublish (Except.ok ()) (Except.error e) tr = (Except.error e, 0) := by
  obtain ⟨m, rfl⟩ : ∃ m, n = m + 1 := ⟨n - 1, by omega⟩
  rw [publishWithRetry, pwrLoop_selThrow step e h m 0 none]
  exact ⟨rfl, rfl, by simp, rfl⟩

/-- Witness for C5 (amended) with the default `maxAttempts = 5`. -/
theorem selector_error_no_transport_witness :
    (publishWithRetry (fun _ => AttemptOutcome.selThrow "sel-boom") 5).transportCalls
      = 0 ∧
    (publishWithRetry (fun _ => AttemptOutcome.selThrow "sel-boom") 5).result
      = Except.error (some "sel-boom") ∧
    basicPublish (Except.ok ()) (Except.error "sel-boom") (Except.ok "id")
      = (Except.error "sel-boom", 0) := by
  have h := selector_error_no_transport
    (fun _ => AttemptOutcome.selThrow "sel-boom") "sel-boom" 5 (Except.ok "id")
    (fun _ => rfl) (by omega)
  exact ⟨h.1, h.2.1, h.2.2.2⟩

/-! ## Theorems: backoff delay -/

/-- **C7** Backoff bound: for any attempt index and integer configuration
(`initialDelayMs > 0`), the computed delay equals
`min(maxDelayMs, initialDelayMs * factor ^ attempt)` plus a jitter value in
`[0, initialDelayMs)` (the floor of `Math.random() * initialDelayMs` with
`Math.random()` in `[0, 1)`), and is therefore at most
`maxDelayMs + initialDelayMs`. -/
theorem calculateRetryDelay_bound (a i m f : Nat) (rand : ℚ)
    (hi : 0 < i) (h0 : 0 ≤ rand) (h1 : rand < 1) :
    ∃ j : ℤ, 0 ≤ j ∧ j < (i : ℤ) ∧
      calculateRetryDelay a (i : ℚ) (m : ℚ) (f : ℚ) rand
        = min (m : ℤ) ((i : ℤ) * (f : ℤ) ^ a) + j ∧
      calculateRetryDelay a (i : ℚ) (m : ℚ) (f : ℚ) rand ≤ (m : ℤ) + (i : ℤ) := by
  have hip : (0 : ℚ) < (i : ℚ) := by exact_mod_cast hi
  have hmin : min ((m : ℚ)) ((i : ℚ) * (f : ℚ) ^ a)
      = ((min ((m : ℤ)) ((i : ℤ) * (f : ℤ) ^ a) : ℤ) : ℚ) := by
    push_cast
    rfl
  have hkey : calculateRetryDelay a (i : ℚ) (m : ℚ) (f : ℚ) rand
      = min ((m : ℤ)) ((i : ℤ) * (f : ℤ) ^ a) + ⌊rand * (i : ℚ)⌋ := by
    rw [calculateRetryDelay, hmin, Int.floor_int_add]
  refine ⟨⌊rand * (i : ℚ)⌋, ?_, ?_, hkey, ?_⟩
  · exact Int.floor_nonneg.mpr (mul_nonneg h0 (le_of_lt hip))
  · apply Int.floor_lt.mpr
    have : rand * (i : ℚ) < 1 * (i : ℚ) := mul_lt_mul_of_pos_right h1 hip
    rw [one_mul] at this
    exact_mod_cast this
  · rw [hkey]
    have hle : min ((m : ℤ)) ((i : ℤ) * (f : ℤ) ^ a) ≤ (m : ℤ) := min_le_left _ _
    have hjlt : ⌊rand * (i : ℚ)⌋ < (i : ℤ) := by
      apply Int.floor_lt.mpr
      have : rand * (i : ℚ) < 1 * (i : ℚ) := mul_lt_mul_of_pos_right h1 hip
      rw [one_mul] at this
      exact_mod_cast this
    omega

/-- Witness for C7 at the default configuration
(`initialDelayMs = 100`, `maxDelayMs = 10000`, `factor = 2`), attempt 0 and
`Math.random() = 1/2`. -/
theorem calculateRetryDelay_bound_witness :
    ∃ j : ℤ, 0 ≤ j ∧ j < ((100 : Nat) : ℤ) ∧
      calculateRetryDelay 0 ((100 : Nat) : ℚ) ((10000 : Nat) : ℚ) ((2 : Nat) : ℚ) (1/2)
        = min (((10000 : Nat)) : ℤ) (((100 : Nat) : ℤ) * ((2 : Nat) : ℤ) ^ 0) + j ∧
      calculateRetryDelay 0 ((100 : Nat) : ℚ) ((10000 : Nat) : ℚ) ((2 : Nat) : ℚ) (1/2)
        ≤ (((10000 : Nat)) : ℤ) + ((100 : Nat) : ℤ) :=
  calculateRetryDelay_bound 0 100 10000 2 (1/2) (by norm_num) (by norm_num) (by norm_num)
